import Mathlib

/-!
Verification of the network-architecture layer of `lib/model.py`
(two-stage detector: backbone, feature-pyramid fusion, region proposal
network, classification / box / mask heads, and loss composition).

Tensors are shallowly embedded as spatial grids with explicit channel,
height and width extents and a total indexing function; machine floats
are modelled by exact fields (`ℚ` for the purely structural layers,
`ℝ` where `exp`/`log` are involved).  Each `nn` operation used by the
claims (`F.pad`, `SamePad2d`, `Conv2d`, `F.upsample`, `MaxPool2d`,
`permute`/`view` reshaping, `Softmax`, the loss composition) is
translated from its use in the source.
-/

namespace Model

/-- A (single-image) feature map: `c` channels, spatial extent `h × w`
(PyTorch `NCHW` with the batch dimension handled elementwise).  `data`
is total; only indices below the extents are meaningful. -/
@[ext]
structure T3 (α : Type) : Type where
  c : ℕ
  h : ℕ
  w : ℕ
  data : ℕ → ℕ → ℕ → α

/-- Ceiling division `math.ceil(n / s)` for natural `n`, positive `s`. -/
def ceilDiv (n s : ℕ) : ℕ := (n + s - 1) / s

/-- Zero padding `F.pad(input, (pl, pr, pt, pb), 'constant', 0)`: the first pair pads
the last (width) dimension, the second pair the height dimension.
Negative amounts crop, as in PyTorch. -/
def pad2d {α : Type} [Zero α] (pl pr pt pb : ℤ) (t : T3 α) : T3 α :=
  { c := t.c
    h := ((t.h : ℤ) + pt + pb).toNat
    w := ((t.w : ℤ) + pl + pr).toNat
    data := fun c i j =>
      let i' : ℤ := (i : ℤ) - pt
      let j' : ℤ := (j : ℤ) - pl
      if 0 ≤ i' ∧ i' < (t.h : ℤ) ∧ 0 ≤ j' ∧ j' < (t.w : ℤ) then
        t.data c i'.toNat j'.toNat
      else 0 }

/-- The `pad_along_*` amount of `SamePad2d.forward` for one dimension:
`(ceil(n/s) - 1) * s + k - n` (an integer; it can be negative when the
kernel is smaller than the stride). -/
def padAlongDim (k s n : ℕ) : ℤ := ((ceilDiv n s : ℤ) - 1) * s + k - n

/-- Forward pass of `SamePad2d` (`lib/model.py:18-31`), with the kernel/stride
pairs `(k0, k1)` and `(s0, s1)` (`_pair` duplicates a scalar argument).
Faithful to the source, including its indexing convention:
`in_width = input.size()[2]` (the height extent of an NCHW tensor) and
`in_height = input.size()[3]`, while `F.pad` applies `(pad_left,
pad_right)` to the last dimension. -/
def samePad2d {α : Type} [Zero α] (k0 k1 s0 s1 : ℕ) (t : T3 α) : T3 α :=
  let inWidth := t.h
  let inHeight := t.w
  let padAlongWidth := padAlongDim k0 s0 inWidth
  let padAlongHeight := padAlongDim k1 s1 inHeight
  let padLeft := padAlongWidth.fdiv 2
  let padTop := padAlongHeight.fdiv 2
  let padRight := padAlongWidth - padLeft
  let padBottom := padAlongHeight - padTop
  pad2d padLeft padRight padTop padBottom t

/-- The `pad_left` amount of `SamePad2d(k, s)` on `t` (`math.floor(pad/2)`);
applied to the last (width) dimension. -/
def samePadL {α : Type} (k s : ℕ) (t : T3 α) : ℤ := (padAlongDim k s t.h).fdiv 2

/-- The `pad_right` amount of `SamePad2d(k, s)` on `t`. -/
def samePadR {α : Type} (k s : ℕ) (t : T3 α) : ℤ :=
  padAlongDim k s t.h - samePadL k s t

/-- The `pad_top` amount of `SamePad2d(k, s)` on `t`; applied to the height
dimension. -/
def samePadT {α : Type} (k s : ℕ) (t : T3 α) : ℤ := (padAlongDim k s t.w).fdiv 2

/-- The `pad_bottom` amount of `SamePad2d(k, s)` on `t`. -/
def samePadB {α : Type} (k s : ℕ) (t : T3 α) : ℤ :=
  padAlongDim k s t.w - samePadT k s t

/-- Output extent of a stride-`s`, size-`k` sliding window with no
built-in padding: `floor((n - k)/s) + 1`.  PyTorch raises when the
input is smaller than the kernel; extent `0` encodes that no window
fits. -/
def convOutDim (n k s : ℕ) : ℕ := if n < k then 0 else (n - k) / s + 1

/-- Convolution `nn.Conv2d(·, co, kernel_size=(k0,k1), stride=(s0,s1))` (no
built-in padding): cross-correlation plus bias, summing over the
input's channels. -/
def conv2d {α : Type} [CommRing α] (co k0 k1 s0 s1 : ℕ)
    (wt : ℕ → ℕ → ℕ → ℕ → α) (bias : ℕ → α) (t : T3 α) : T3 α :=
  { c := co
    h := convOutDim t.h k0 s0
    w := convOutDim t.w k1 s1
    data := fun o i j =>
      bias o + ∑ ci ∈ Finset.range t.c, ∑ a ∈ Finset.range k0,
        ∑ b ∈ Finset.range k1, wt o ci a b * t.data ci (i * s0 + a) (j * s1 + b) }

/-- Upsampling `F.upsample(·, scale_factor=2)` (nearest neighbour). -/
def upsample2 {α : Type} (t : T3 α) : T3 α :=
  { c := t.c, h := 2 * t.h, w := 2 * t.w
    data := fun c i j => t.data c (i / 2) (j / 2) }

/-- Pointwise sum of two feature maps (the extents agree in every
valid use; the first operand's extents are kept). -/
def addT {α : Type} [Add α] (t u : T3 α) : T3 α :=
  { c := t.c, h := t.h, w := t.w
    data := fun c i j => t.data c i j + u.data c i j }

/-- Max pooling `nn.MaxPool2d(kernel_size=k, stride=s)`. -/
def maxPool2d {α : Type} [LinearOrder α] (k s : ℕ) (t : T3 α) : T3 α :=
  { c := t.c
    h := convOutDim t.h k s
    w := convOutDim t.w k s
    data := fun c i j =>
      ((List.range (k * k)).map
        (fun idx => t.data c (i * s + idx / k) (j * s + idx % k))).foldl
        max (t.data c (i * s) (j * s)) }

/-- Spec-side description of the extra coarsest pyramid level: a plain
stride-2 subsampling (every other row/column), spatial size
`ceil(input/2)`. -/
def subsample2 {α : Type} (t : T3 α) : T3 α :=
  { c := t.c, h := ceilDiv t.h 2, w := ceilDiv t.w 2
    data := fun c i j => t.data c (i * 2) (j * 2) }

/-- Rectifier `nn.ReLU` (pointwise). -/
def reluT {α : Type} [LinearOrder α] [Zero α] (t : T3 α) : T3 α :=
  { t with data := fun c i j => max 0 (t.data c i j) }

/-- Trained parameters of the `FPN` module (`lib/model.py:54-82`): for
each level a 1×1 lateral projection (`P*_conv1`) and a 3×3 smoothing
convolution (`P*_conv2`), each with weights and bias. -/
structure FPNParams (α : Type) : Type where
  p5c1w : ℕ → ℕ → ℕ → ℕ → α
  p5c1b : ℕ → α
  p5c2w : ℕ → ℕ → ℕ → ℕ → α
  p5c2b : ℕ → α
  p4c1w : ℕ → ℕ → ℕ → ℕ → α
  p4c1b : ℕ → α
  p4c2w : ℕ → ℕ → ℕ → ℕ → α
  p4c2b : ℕ → α
  p3c1w : ℕ → ℕ → ℕ → ℕ → α
  p3c1b : ℕ → α
  p3c2w : ℕ → ℕ → ℕ → ℕ → α
  p3c2b : ℕ → α
  p2c1w : ℕ → ℕ → ℕ → ℕ → α
  p2c1b : ℕ → α
  p2c2w : ℕ → ℕ → ℕ → ℕ → α
  p2c2b : ℕ → α

/-- Forward pass of `FPN` (`lib/model.py:84-107`).  `c1 … c5` are the backbone
stages (arbitrary maps, as they are modules passed to the
constructor); `outC` is `self.out_channels`.  Straight-line
translation of the source: lateral 1×1 projections, top-down 2×
nearest upsampling and addition, 3×3 same-padded smoothing, and
`P6 = MaxPool2d(kernel_size=1, stride=2)` of the smoothed `P5`. -/
def fpnForward {α : Type} [CommRing α] [LinearOrder α]
    (P : FPNParams α) (c1 c2 c3 c4 c5 : T3 α → T3 α) (outC : ℕ)
    (x : T3 α) : List (T3 α) :=
  let x1 := c1 x
  let c2out := c2 x1
  let c3out := c3 c2out
  let c4out := c4 c3out
  let c5out := c5 c4out
  let p5out := conv2d outC 1 1 1 1 P.p5c1w P.p5c1b c5out
  let p4out := addT (conv2d outC 1 1 1 1 P.p4c1w P.p4c1b c4out) (upsample2 p5out)
  let p3out := addT (conv2d outC 1 1 1 1 P.p3c1w P.p3c1b c3out) (upsample2 p4out)
  let p2out := addT (conv2d outC 1 1 1 1 P.p2c1w P.p2c1b c2out) (upsample2 p3out)
  let p5s := conv2d outC 3 3 1 1 P.p5c2w P.p5c2b (samePad2d 3 3 1 1 p5out)
  let p4s := conv2d outC 3 3 1 1 P.p4c2w P.p4c2b (samePad2d 3 3 1 1 p4out)
  let p3s := conv2d outC 3 3 1 1 P.p3c2w P.p3c2b (samePad2d 3 3 1 1 p3out)
  let p2s := conv2d outC 3 3 1 1 P.p2c2w P.p2c2b (samePad2d 3 3 1 1 p2out)
  let p6out := maxPool2d 1 2 p5s
  [p2s, p3s, p4s, p5s, p6out]

/-- The `ResNet` module (`lib/model.py:153-205`): the construction-time
configuration, the four mandatory stages and the optional fifth stage
(`self.C5 = None` when `stage5=False`).  The stage maps are abstract
(their trained weights are data of the module). -/
structure ResNet : Type where
  layers : List ℕ
  stage5 : Bool
  C1 : T3 ℚ → T3 ℚ
  C2 : T3 ℚ → T3 ℚ
  C3 : T3 ℚ → T3 ℚ
  C4 : T3 ℚ → T3 ℚ
  C5 : Option (T3 ℚ → T3 ℚ)

/-- Constructor `ResNet.__init__` (`lib/model.py:155-177`):
`assert architecture in ["resnet50", "resnet101"]` (modelled as
`none` on failure), `self.layers = [3, 4, {"resnet50": 6,
"resnet101": 23}[architecture], 3]` (`layers[2]` sizes the fourth
stage `C4`), and `C5` built only under `stage5`. -/
def mkResNet (architecture : String) (stage5 : Bool)
    (f1 f2 f3 f4 f5 : T3 ℚ → T3 ℚ) : Option ResNet :=
  if architecture = "resnet50" ∨ architecture = "resnet101" then
    some { layers := [3, 4, if architecture = "resnet50" then 6 else 23, 3]
           stage5 := stage5
           C1 := f1, C2 := f2, C3 := f3, C4 := f4
           C5 := if stage5 then some f5 else none }
  else none

/-- Forward pass of `ResNet` (`lib/model.py:179-185`): applies `C1 … C4` and
then unconditionally `x = self.C5(x)`.  When `self.C5` is `None`
(`stage5=False`) that call raises `TypeError`, modelled as `none`. -/
def resnetForward (r : ResNet) (x : T3 ℚ) : Option (T3 ℚ) :=
  let x4 := r.C4 (r.C3 (r.C2 (r.C1 x)))
  match r.C5 with
  | some f => some (f x4)
  | none => none

/-- A flattened per-anchor tensor `[n, g]` (one batch element of the
`view(batch, -1, g)` result): `n` rows of `g` entries. -/
structure F2 (α : Type) : Type where
  n : ℕ
  g : ℕ
  data : ℕ → ℕ → α

/-- Reshaping `t.permute(0, 2, 3, 1).contiguous().view(batch, -1, g)` for one
batch element: the `[h, w, c]` row-major stream regrouped in rows of
`g`.  Row `i`, entry `j` reads offset `g*i + j` of that stream. -/
def permuteFlatten {α : Type} (g : ℕ) (t : T3 α) : F2 α :=
  { n := t.h * t.w * t.c / g
    g := g
    data := fun i j =>
      t.data ((g * i + j) % t.c) ((g * i + j) / (t.w * t.c))
        (((g * i + j) / t.c) % t.w) }

/-- Softmax `nn.Softmax(dim=2)` on a `[batch, n, g]` tensor (one batch
element): each row of `g` entries is normalized independently. -/
noncomputable def softmaxF2 (t : F2 ℝ) : F2 ℝ :=
  { n := t.n, g := t.g
    data := fun i j =>
      Real.exp (t.data i j) / ∑ j' ∈ Finset.range t.g, Real.exp (t.data i j') }

/-- The shared trunk of `RPN.forward` (`lib/model.py:579`):
`relu(conv_shared(padding(x)))` with a 3×3 convolution of stride
`anchor_stride` and 512 output channels. -/
noncomputable def rpnSharedMap (aStride : ℕ) (wS : ℕ → ℕ → ℕ → ℕ → ℝ)
    (bS : ℕ → ℝ) (x : T3 ℝ) : T3 ℝ :=
  reluT (conv2d 512 3 3 aStride aStride wS bS (samePad2d 3 3 aStride aStride x))

/-- The map `self.conv_cls(x)` of the source (`conv_class`, `lib/model.py:582`): 1×1 convolution with
`2 * anchors_per_location` output channels on the shared map. -/
noncomputable def rpnClsMap (A aStride : ℕ) (wS : ℕ → ℕ → ℕ → ℕ → ℝ) (bS : ℕ → ℝ)
    (wC : ℕ → ℕ → ℕ → ℕ → ℝ) (bC : ℕ → ℝ) (x : T3 ℝ) : T3 ℝ :=
  conv2d (2 * A) 1 1 1 1 wC bC (rpnSharedMap aStride wS bS x)

/-- The map `self.conv_bbox(x)` (`lib/model.py:594`): 1×1 convolution with
`4 * anchors_per_location` output channels on the shared map. -/
noncomputable def rpnBoxMap (A aStride : ℕ) (wS : ℕ → ℕ → ℕ → ℕ → ℝ) (bS : ℕ → ℝ)
    (wB : ℕ → ℕ → ℕ → ℕ → ℝ) (bB : ℕ → ℝ) (x : T3 ℝ) : T3 ℝ :=
  conv2d (4 * A) 1 1 1 1 wB bB (rpnSharedMap aStride wS bS x)

/-- Forward pass of `RPN` (`lib/model.py:577-601`) for one batch element:
returns `[rpn_class_logits, rpn_probs, rpn_bbox]` — the class map
flattened in pairs, its softmax over the last dimension, and the box
map flattened in quadruples. -/
noncomputable def rpnForward (A aStride : ℕ)
    (wS : ℕ → ℕ → ℕ → ℕ → ℝ) (bS : ℕ → ℝ)
    (wC : ℕ → ℕ → ℕ → ℕ → ℝ) (bC : ℕ → ℝ)
    (wB : ℕ → ℕ → ℕ → ℕ → ℝ) (bB : ℕ → ℝ)
    (x : T3 ℝ) : F2 ℝ × F2 ℝ × F2 ℝ :=
  let logits := permuteFlatten 2 (rpnClsMap A aStride wS bS wC bC x)
  let probs := softmaxF2 logits
  let bbox := permuteFlatten 4 (rpnBoxMap A aStride wS bS wB bB x)
  (logits, probs, bbox)

/-- Normalization `nn.BatchNorm2d` as used at a fixed parameter state: a per-channel
pointwise map (scale/shift/statistics folded into `f`). -/
def bnApply (f : ℕ → ℝ → ℝ) (t : T3 ℝ) : T3 ℝ :=
  { t with data := fun c i j => f c (t.data c i j) }

/-- The two-convolution trunk of `Classifier.forward`
(`lib/model.py:627-632`): `relu(bn2(conv2(relu(bn1(conv1 x)))))`, with
`conv1 = Conv2d(depth, 1024, kernel_size=pool_size)` and
`conv2 = Conv2d(1024, 1024, kernel_size=1)`. -/
noncomputable def classifierFeat (poolSize : ℕ)
    (w1 : ℕ → ℕ → ℕ → ℕ → ℝ) (b1 : ℕ → ℝ) (bn1 : ℕ → ℝ → ℝ)
    (w2 : ℕ → ℕ → ℕ → ℕ → ℝ) (b2 : ℕ → ℝ) (bn2 : ℕ → ℝ → ℝ)
    (t : T3 ℝ) : T3 ℝ :=
  reluT (bnApply bn2 (conv2d 1024 1 1 1 1 w2 b2
    (reluT (bnApply bn1 (conv2d 1024 poolSize poolSize 1 1 w1 b1 t)))))

/-- Softmax `nn.Softmax(dim=1)` on an `[N, k]` tensor: each row normalized
independently. -/
noncomputable def softmaxRow (row : List ℝ) : List ℝ :=
  row.map (fun v => Real.exp v / (row.map Real.exp).sum)

/-- One output of an `nn.Linear(1024, ·)` applied to the flattened
(`view(-1, 1024)`) 1×1-spatial feature map `t`: channel `ch` is read
at the spatial origin. -/
noncomputable def linRow (wL : ℕ → ℕ → ℝ) (bL : ℕ → ℝ) (t : T3 ℝ) (m : ℕ) : ℝ :=
  bL m + ∑ ch ∈ Finset.range 1024, wL m ch * t.data ch 0 0

/-- Forward pass of `Classifier` (`lib/model.py:625-641`) after the
`pyramid_roi_align` call (that operator lives in `lib/layers`, outside
the sources; the head is modelled from the batch of pooled RoI
features it produces).  `x.view(-1, 1024)` reads channel `ch` at the
(1×1) spatial origin; `mrcnn_bbox.view(N, -1, 4)` groups the flat
`4*num_classes` output in quadruples per class.  Returns
`[mrcnn_class_logits, mrcnn_probs, mrcnn_bbox]`. -/
noncomputable def classifierForward (numClasses : ℕ) (poolSize : ℕ)
    (w1 : ℕ → ℕ → ℕ → ℕ → ℝ) (b1 : ℕ → ℝ) (bn1 : ℕ → ℝ → ℝ)
    (w2 : ℕ → ℕ → ℕ → ℕ → ℝ) (b2 : ℕ → ℝ) (bn2 : ℕ → ℝ → ℝ)
    (wCls : ℕ → ℕ → ℝ) (bCls : ℕ → ℝ)
    (wBox : ℕ → ℕ → ℝ) (bBox : ℕ → ℝ)
    (pooled : List (T3 ℝ)) :
    List (List ℝ) × List (List ℝ) × List (List (List ℝ)) :=
  let feats := pooled.map (classifierFeat poolSize w1 b1 bn1 w2 b2 bn2)
  let logits := feats.map (fun t => (List.range numClasses).map (linRow wCls bCls t))
  let probs := logits.map softmaxRow
  let bbox := feats.map (fun t => (List.range numClasses).map
    (fun cc => (List.range 4).map (fun jj => linRow wBox bBox t (4 * cc + jj))))
  (logits, probs, bbox)

/-- Read a feature map at integer coordinates; `0` outside the valid
extents. -/
def readZ (t : T3 ℚ) (c : ℕ) (i j : ℤ) : ℚ :=
  if 0 ≤ i ∧ i < (t.h : ℤ) ∧ 0 ≤ j ∧ j < (t.w : ℤ) then
    t.data c i.toNat j.toNat
  else 0

/-- Claim C10 as stated, at one instance: `SamePad2d(k, s)` only adds
zero border cells — the output restricted to the rectangle at offset
`(pad_top, pad_left)` is the input, every other output cell is `0` —
and the right/bottom pad exceeds the left/top pad by at most one. -/
def padPreserves (k s : ℕ) (t : T3 ℚ) : Prop :=
  (∀ c i j, i < t.h → j < t.w →
    readZ (samePad2d k k s s t) c ((i : ℤ) + samePadT k s t)
      ((j : ℤ) + samePadL k s t) = t.data c i j) ∧
  (∀ c i j, i < (samePad2d k k s s t).h → j < (samePad2d k k s s t).w →
    ((i : ℤ) < samePadT k s t ∨ samePadT k s t + t.h ≤ (i : ℤ) ∨
      (j : ℤ) < samePadL k s t ∨ samePadL k s t + t.w ≤ (j : ℤ)) →
    (samePad2d k k s s t).data c i j = 0) ∧
  (samePadR k s t - samePadL k s t = 0 ∨ samePadR k s t - samePadL k s t = 1) ∧
  (samePadB k s t - samePadT k s t = 0 ∨ samePadB k s t - samePadT k s t = 1)

/-- A 4-component box delta `(dy, dx, log(dh), log(dw))`. -/
abbrev D4 : Type := ℝ × ℝ × ℝ × ℝ

/-- Huber / smooth-L1 penalty of one residual. -/
noncomputable def smoothL1 (x : ℝ) : ℝ := if |x| < 1 then x ^ 2 / 2 else |x| - 1 / 2

/-- Smooth-L1 distance of two box deltas, summed over the 4
components. -/
noncomputable def smoothL1d4 (p t : D4) : ℝ :=
  smoothL1 (p.1 - t.1) + smoothL1 (p.2.1 - t.2.1) +
    smoothL1 (p.2.2.1 - t.2.2.1) + smoothL1 (p.2.2.2 - t.2.2.2)

/-- Cross-entropy of a two-way (background/foreground) logit pair
against class `cls ∈ {0, 1}`. -/
noncomputable def ce2 (l0 l1 : ℝ) (cls : ℕ) : ℝ :=
  Real.log (Real.exp l0 + Real.exp l1) - (if cls = 1 then l1 else l0)

/-- Cross-entropy of a logit row against class index `cls`. -/
noncomputable def ceRow (row : List ℝ) (cls : ℕ) : ℝ :=
  Real.log ((row.map Real.exp).sum) - row.getD cls 0

/-- Binary cross-entropy of one predicted mask cell against its
target. -/
noncomputable def bce (p y : ℝ) : ℝ :=
  -(y * Real.log p + (1 - y) * Real.log (1 - p))

/-- Modelled from the spec: `compute_rpn_class_loss` is called by
`compute_loss` (`lib/model.py:434`) but defined outside the sources.
Spec §4.7: cross-entropy over foreground/background, ignoring anchors
marked "neutral" (match value `0`; `1` is positive, `-1` negative),
zero when no anchor contributes. -/
noncomputable def computeRpnClassLoss (targetRpnMatch : List ℤ)
    (rpnClassLogits : List (ℝ × ℝ)) : ℝ :=
  let sel := (targetRpnMatch.zip rpnClassLogits).filter (fun p => decide (p.1 ≠ 0))
  if sel.isEmpty then 0
  else (sel.map (fun p => ce2 p.2.1 p.2.2 (if p.1 = 1 then 1 else 0))).sum / sel.length

/-- Modelled from the spec: `compute_rpn_bbox_loss` is called by
`compute_loss` (`lib/model.py:435`) but defined outside the sources.
Spec §4.7: smooth-L1 over positive anchors only, normalized by the
positive count, zero when there is no positive anchor. -/
noncomputable def computeRpnBboxLoss (targetRpnBbox : List D4)
    (targetRpnMatch : List ℤ) (rpnPredBbox : List D4) : ℝ :=
  let sel := (targetRpnMatch.zip (rpnPredBbox.zip targetRpnBbox)).filter
    (fun p => decide (p.1 = 1))
  if sel.isEmpty then 0
  else (sel.map (fun p => smoothL1d4 p.2.1 p.2.2)).sum / sel.length

/-- Modelled from the spec: `compute_mrcnn_class_loss` is called by
`compute_loss` (`lib/model.py:436`) but defined outside the sources.
Spec §4.7: cross-entropy of the head logits against the target class
ids, zero when the target set is empty. -/
noncomputable def computeMrcnnClassLoss (targetClassIds : List ℕ)
    (mrcnnClassLogits : List (List ℝ)) : ℝ :=
  if targetClassIds.isEmpty then 0
  else ((targetClassIds.zip mrcnnClassLogits).map (fun p => ceRow p.2 p.1)).sum /
    targetClassIds.length

/-- Modelled from the spec: `compute_mrcnn_bbox_loss` is called by
`compute_loss` (`lib/model.py:437`) but defined outside the sources.
Spec §4.7: smooth-L1 evaluated only at the ground-truth class's
predicted box, over positive RoIs (class id `> 0`), zero when there is
none. -/
noncomputable def computeMrcnnBboxLoss (targetDeltas : List D4)
    (targetClassIds : List ℕ) (mrcnnBbox : List (List D4)) : ℝ :=
  let sel := (targetClassIds.zip (targetDeltas.zip mrcnnBbox)).filter
    (fun p => decide (0 < p.1))
  if sel.isEmpty then 0
  else (sel.map (fun p => smoothL1d4 (p.2.2.getD p.1 (0, 0, 0, 0)) p.2.1)).sum /
    sel.length

/-- Modelled from the spec: `compute_mrcnn_mask_loss` is called by
`compute_loss` (`lib/model.py:438`) but defined outside the sources.
Spec §4.7: per-class binary cross-entropy at the ground-truth class
channel only (masks flattened to pixel lists), over positive RoIs,
zero when there is none. -/
noncomputable def computeMrcnnMaskLoss (targetMask : List (List ℝ))
    (targetClassIds : List ℕ) (mrcnnMask : List (List (List ℝ))) : ℝ :=
  let sel := (targetClassIds.zip (targetMask.zip mrcnnMask)).filter
    (fun p => decide (0 < p.1))
  if sel.isEmpty then 0
  else (sel.map (fun p =>
    (((p.2.2.getD p.1 []).zip p.2.1).map (fun q => bce q.1 q.2)).sum)).sum /
    sel.length

/-- The 8-element `inputs` unpacked by `compute_loss`
(`lib/model.py:430-432`), with the source's names. -/
structure LossInputs : Type where
  rpnClassLogits : List (ℝ × ℝ)
  rpnPredBbox : List D4
  targetClassIds : List ℕ
  mrcnnClassLogits : List (List ℝ)
  targetDeltas : List D4
  mrcnnBbox : List (List D4)
  targetMask : List (List ℝ)
  mrcnnMask : List (List (List ℝ))

/-- The function `compute_loss` (`lib/model.py:428-441`): computes the five task
losses and returns `(sum(outputs), outputs)`. -/
noncomputable def computeLoss (targetRpnMatch : List ℤ) (targetRpnBbox : List D4)
    (inputs : LossInputs) : ℝ × List ℝ :=
  let rpnClassLoss := computeRpnClassLoss targetRpnMatch inputs.rpnClassLogits
  let rpnBboxLoss := computeRpnBboxLoss targetRpnBbox targetRpnMatch inputs.rpnPredBbox
  let mrcnnClassLoss := computeMrcnnClassLoss inputs.targetClassIds inputs.mrcnnClassLogits
  let mrcnnBboxLoss := computeMrcnnBboxLoss inputs.targetDeltas inputs.targetClassIds inputs.mrcnnBbox
  let mrcnnMaskLoss := computeMrcnnMaskLoss inputs.targetMask inputs.targetClassIds inputs.mrcnnMask
  let outputs := [rpnClassLoss, rpnBboxLoss, mrcnnClassLoss, mrcnnBboxLoss, mrcnnMaskLoss]
  (outputs.sum, outputs)

/-- Concrete 1-channel 5×4 input used to evaluate claim C1 (spatial
extents `H = 5`, `W = 4`). -/
def c1Input : T3 ℚ := ⟨1, 5, 4, fun _ _ _ => 0⟩

/-- Concrete 2×2 input with pairwise distinct nonzero values, used for
the C10 counterexample. -/
def c10Input : T3 ℚ := ⟨1, 2, 2, fun _ i j => (i * 2 + j + 1 : ℚ)⟩

/-- Concrete 3-channel 4×4 input used to evaluate claim C3. -/
def c3Input : T3 ℚ := ⟨3, 4, 4, fun _ _ _ => 0⟩

/-- A kernel-size-1, stride-2 max pool is exactly the stride-2
subsampling that keeps every other row and column. -/
theorem maxPool_one_stride2 {α : Type} [LinearOrder α] (t : T3 α) :
    maxPool2d 1 2 t = subsample2 t := by
  unfold maxPool2d subsample2
  refine T3.ext rfl ?_ ?_ ?_
  · show convOutDim t.h 1 2 = ceilDiv t.h 2
    unfold convOutDim ceilDiv
    split <;> omega
  · show convOutDim t.w 1 2 = ceilDiv t.w 2
    unfold convOutDim ceilDiv
    split <;> omega
  · funext c i j
    simp only [Nat.mul_one, show List.range 1 = [0] from rfl, List.map_cons, List.map_nil,
      List.foldl_cons, List.foldl_nil, Nat.zero_div, Nat.zero_mod, Nat.add_zero]
    exact max_self _

/-- Claim C1 (code bug): `SamePad2d(3, 2)` followed by a 3×3, stride-2
convolution on a 1×1×5×4 input (spatial extents `H = 5`, `W = 4`)
produces spatial extents `(2, 2)`, not the claimed
`(ceil(5/2), ceil(4/2)) = (3, 2)`: `SamePad2d.forward` computes the
pad amounts from `size()[2]`/`size()[3]` but `F.pad` applies the first
pair to the last dimension, so each spatial dimension is padded by the
amount derived from the other one. -/
theorem same_pad_conv_output_size_bug :
    (conv2d 1 3 3 2 2 (fun _ _ _ _ => (0 : ℚ)) (fun _ => 0)
      (samePad2d 3 3 2 2 c1Input)).h = 2 ∧
    (conv2d 1 3 3 2 2 (fun _ _ _ _ => (0 : ℚ)) (fun _ => 0)
      (samePad2d 3 3 2 2 c1Input)).w = 2 ∧
    ceilDiv c1Input.h 2 = 3 ∧ ceilDiv c1Input.w 2 = 2 ∧
    (conv2d 1 3 3 2 2 (fun _ _ _ _ => (0 : ℚ)) (fun _ => 0)
      (samePad2d 3 3 2 2 c1Input)).h ≠ ceilDiv c1Input.h 2 := by
  decide

/-- Claim C2: `FPN.forward` builds each level by 1×1 lateral
projection, addition of the 2×-upsampled next-coarser fused map (for
P4, P3, P2), and 3×3 same-padded smoothing; the extra level P6 is the
stride-2, kernel-size-1 (non-overlapping) subsampling of the fused
(smoothed) P5 map; and the result is exactly `[P2, P3, P4, P5, P6]`. -/
theorem fpn_forward_levels {α : Type} [CommRing α] [LinearOrder α]
    (P : FPNParams α) (c1 c2 c3 c4 c5 : T3 α → T3 α) (outC : ℕ) (x : T3 α) :
    fpnForward P c1 c2 c3 c4 c5 outC x =
      (let c2out := c2 (c1 x)
       let c3out := c3 c2out
       let c4out := c4 c3out
       let c5out := c5 c4out
       let proj5 := conv2d outC 1 1 1 1 P.p5c1w P.p5c1b c5out
       let fused4 := addT (conv2d outC 1 1 1 1 P.p4c1w P.p4c1b c4out) (upsample2 proj5)
       let fused3 := addT (conv2d outC 1 1 1 1 P.p3c1w P.p3c1b c3out) (upsample2 fused4)
       let fused2 := addT (conv2d outC 1 1 1 1 P.p2c1w P.p2c1b c2out) (upsample2 fused3)
       let p5 := conv2d outC 3 3 1 1 P.p5c2w P.p5c2b (samePad2d 3 3 1 1 proj5)
       let p4 := conv2d outC 3 3 1 1 P.p4c2w P.p4c2b (samePad2d 3 3 1 1 fused4)
       let p3 := conv2d outC 3 3 1 1 P.p3c2w P.p3c2b (samePad2d 3 3 1 1 fused3)
       let p2 := conv2d outC 3 3 1 1 P.p2c2w P.p2c2b (samePad2d 3 3 1 1 fused2)
       [p2, p3, p4, p5, subsample2 p5]) := by
  simp only [fpnForward]
  rw [maxPool_one_stride2]

/-- Claim C3 (code bug): a `ResNet` constructed with `stage5=False`
does construct, but its forward pass never completes: `forward`
unconditionally executes `x = self.C5(x)` while `self.C5` is `None`,
so the claimed backbone use without the fifth stage fails instead of
producing feature maps. -/
theorem resnet_forward_without_stage5 :
    (mkResNet "resnet50" false id id id id id).map
      (fun r => resnetForward r c3Input) = some none := by
  rfl

/-- Claim C4: `ResNet` construction succeeds iff the architecture name
is `"resnet50"` or `"resnet101"`, and the recognized names select 6
resp. 23 blocks for the fourth stage (`layers[2]`, consumed by
`make_layer` for `C4`). -/
theorem resnet_construction (architecture : String) (s5 : Bool)
    (f1 f2 f3 f4 f5 : T3 ℚ → T3 ℚ) :
    ((mkResNet architecture s5 f1 f2 f3 f4 f5).isSome ↔
      architecture = "resnet50" ∨ architecture = "resnet101") ∧
    (mkResNet "resnet50" s5 f1 f2 f3 f4 f5).map ResNet.layers = some [3, 4, 6, 3] ∧
    (mkResNet "resnet101" s5 f1 f2 f3 f4 f5).map ResNet.layers = some [3, 4, 23, 3] := by
  refine ⟨?_, ?_, ?_⟩
  · unfold mkResNet
    split_ifs with h <;> simp [h]
  · rfl
  · rfl

/-- Claim C6: `compute_loss` returns a total equal to the exact
unweighted sum of the five individually computed task losses, together
with the list of those five losses in order (RPN class, RPN box, head
class, head box, mask). -/
theorem compute_loss_total (tm : List ℤ) (tb : List D4) (inputs : LossInputs) :
    (computeLoss tm tb inputs).1 =
      computeRpnClassLoss tm inputs.rpnClassLogits +
      computeRpnBboxLoss tb tm inputs.rpnPredBbox +
      computeMrcnnClassLoss inputs.targetClassIds inputs.mrcnnClassLogits +
      computeMrcnnBboxLoss inputs.targetDeltas inputs.targetClassIds inputs.mrcnnBbox +
      computeMrcnnMaskLoss inputs.targetMask inputs.targetClassIds inputs.mrcnnMask ∧
    (computeLoss tm tb inputs).2 =
      [computeRpnClassLoss tm inputs.rpnClassLogits,
       computeRpnBboxLoss tb tm inputs.rpnPredBbox,
       computeMrcnnClassLoss inputs.targetClassIds inputs.mrcnnClassLogits,
       computeMrcnnBboxLoss inputs.targetDeltas inputs.targetClassIds inputs.mrcnnBbox,
       computeMrcnnMaskLoss inputs.targetMask inputs.targetClassIds inputs.mrcnnMask] := by
  refine ⟨?_, rfl⟩
  show List.sum _ = _
  simp only [List.sum_cons, List.sum_nil]
  ring

/-- A 1×1, stride-1 sliding window preserves an extent. -/
theorem convOutDim_one_one (n : ℕ) : convOutDim n 1 1 = n := by
  unfold convOutDim
  split <;> omega

/-- Where the `permute(0,2,3,1)` + `view(batch, -1, g)` reshaping
reads from: with `g * A` channels, flat row `i`, entry `j < g` reads
channel `g * (i % A) + j` at spatial position
`(row, col) = ((i / A) / w, (i / A) % w)` — i.e. anchor slot `i % A`
of grid cell `i / A`, independent of `g`. -/
theorem permuteFlatten_data {α : Type} (g A : ℕ) (t : T3 α) (hc : t.c = g * A)
    (hA : 0 < A) (i j : ℕ) (hj : j < g) :
    (permuteFlatten g t).data i j =
      t.data (g * (i % A) + j) ((i / A) / t.w) ((i / A) % t.w) := by
  have hg : 0 < g := lt_of_le_of_lt (Nat.zero_le j) hj
  have hlt : g * (i % A) + j < g * A := by
    have h2 : i % A + 1 ≤ A := Nat.mod_lt i hA
    calc g * (i % A) + j < g * (i % A) + g := by omega
      _ = g * (i % A + 1) := by ring
      _ ≤ g * A := Nat.mul_le_mul_left g h2
  have hoff : g * i + j = g * (i % A) + j + g * A * (i / A) := by
    conv_lhs => rw [← Nat.mod_add_div i A]
    ring
  have hCA : 0 < g * A := Nat.mul_pos hg hA
  have ediv : (g * i + j) / (g * A) = i / A := by
    rw [hoff, Nat.add_mul_div_left _ _ hCA, Nat.div_eq_of_lt hlt, Nat.zero_add]
  have e1 : (g * i + j) % t.c = g * (i % A) + j := by
    rw [hc, hoff, Nat.add_mul_mod_self_left, Nat.mod_eq_of_lt hlt]
  have e2 : (g * i + j) / (t.w * t.c) = (i / A) / t.w := by
    rw [hc, show t.w * (g * A) = g * A * t.w from Nat.mul_comm _ _,
      ← Nat.div_div_eq_div_mul, ediv]
  have e3 : (g * i + j) / t.c % t.w = (i / A) % t.w := by
    rw [hc, ediv]
  simp only [permuteFlatten]
  rw [e1, e2, e3]

/-- Claim C5: the flattened RPN class output (pairs) and box output
(quadruples) use the same spatial-to-flat reordering: flat anchor
index `i` reads, in both, anchor slot `i % A` of the grid cell at row
`(i / A) / w` and column `(i / A) % w` of the shared feature map (class
entry `j` at channel `2*(i % A) + j`, box entry `j` at channel
`4*(i % A) + j`). -/
theorem rpn_flat_alignment (A aStride : ℕ)
    (wS : ℕ → ℕ → ℕ → ℕ → ℝ) (bS : ℕ → ℝ)
    (wC : ℕ → ℕ → ℕ → ℕ → ℝ) (bC : ℕ → ℝ)
    (wB : ℕ → ℕ → ℕ → ℕ → ℝ) (bB : ℕ → ℝ)
    (x : T3 ℝ) (i j2 j4 : ℕ) (hA : 0 < A) (hj2 : j2 < 2) (hj4 : j4 < 4)
    (hi : i < (rpnSharedMap aStride wS bS x).h * (rpnSharedMap aStride wS bS x).w * A) :
    (rpnForward A aStride wS bS wC bC wB bB x).1.data i j2 =
      (rpnClsMap A aStride wS bS wC bC x).data (2 * (i % A) + j2)
        ((i / A) / (rpnSharedMap aStride wS bS x).w)
        ((i / A) % (rpnSharedMap aStride wS bS x).w) ∧
    (rpnForward A aStride wS bS wC bC wB bB x).2.2.data i j4 =
      (rpnBoxMap A aStride wS bS wB bB x).data (4 * (i % A) + j4)
        ((i / A) / (rpnSharedMap aStride wS bS x).w)
        ((i / A) % (rpnSharedMap aStride wS bS x).w) := by
  have hwC : (rpnClsMap A aStride wS bS wC bC x).w = (rpnSharedMap aStride wS bS x).w := by
    simp only [rpnClsMap, conv2d, convOutDim_one_one]
  have hwB : (rpnBoxMap A aStride wS bS wB bB x).w = (rpnSharedMap aStride wS bS x).w := by
    simp only [rpnBoxMap, conv2d, convOutDim_one_one]
  constructor
  · have h := permuteFlatten_data 2 A (rpnClsMap A aStride wS bS wC bC x) rfl hA i j2 hj2
    rw [hwC] at h
    exact h
  · have h := permuteFlatten_data 4 A (rpnBoxMap A aStride wS bS wB bB x) rfl hA i j4 hj4
    rw [hwB] at h
    exact h

/-- Witness for `rpn_flat_alignment` at a concrete instance. -/
theorem rpn_flat_alignment_holds :
    (rpnForward 1 1 (fun _ _ _ _ => 0) (fun _ => 0) (fun _ _ _ _ => 0) (fun _ => 0)
        (fun _ _ _ _ => 0) (fun _ => 0) ⟨1, 1, 1, fun _ _ _ => 0⟩).1.data 0 1 =
      (rpnClsMap 1 1 (fun _ _ _ _ => 0) (fun _ => 0) (fun _ _ _ _ => 0) (fun _ => 0)
        ⟨1, 1, 1, fun _ _ _ => 0⟩).data 1 0 0 ∧
    (rpnForward 1 1 (fun _ _ _ _ => 0) (fun _ => 0) (fun _ _ _ _ => 0) (fun _ => 0)
        (fun _ _ _ _ => 0) (fun _ => 0) ⟨1, 1, 1, fun _ _ _ => 0⟩).2.2.data 0 3 =
      (rpnBoxMap 1 1 (fun _ _ _ _ => 0) (fun _ => 0) (fun _ _ _ _ => 0) (fun _ => 0)
        ⟨1, 1, 1, fun _ _ _ => 0⟩).data 3 0 0 :=
  rpn_flat_alignment 1 1 (fun _ _ _ _ => 0) (fun _ => 0) (fun _ _ _ _ => 0) (fun _ => 0)
    (fun _ _ _ _ => 0) (fun _ => 0) ⟨1, 1, 1, fun _ _ _ => 0⟩ 0 1 3
    (by decide) (by decide) (by decide) (by decide)

/-- Claim C9: every entry of `rpn_probs` lies in `[0, 1]`, and the
background/foreground pair of each flat anchor index sums to `1`
(`nn.Softmax(dim=2)` normalizes each anchor's pair independently). -/
theorem rpn_probs_pair (A aStride : ℕ)
    (wS : ℕ → ℕ → ℕ → ℕ → ℝ) (bS : ℕ → ℝ)
    (wC : ℕ → ℕ → ℕ → ℕ → ℝ) (bC : ℕ → ℝ)
    (wB : ℕ → ℕ → ℕ → ℕ → ℝ) (bB : ℕ → ℝ)
    (x : T3 ℝ) (i j : ℕ) (hj : j < 2)
    (hi : i < (rpnForward A aStride wS bS wC bC wB bB x).1.n) :
    (0 ≤ (rpnForward A aStride wS bS wC bC wB bB x).2.1.data i j ∧
      (rpnForward A aStride wS bS wC bC wB bB x).2.1.data i j ≤ 1) ∧
    (rpnForward A aStride wS bS wC bC wB bB x).2.1.data i 0 +
      (rpnForward A aStride wS bS wC bC wB bB x).2.1.data i 1 = 1 := by
  have h21 : (rpnForward A aStride wS bS wC bC wB bB x).2.1 =
      softmaxF2 (permuteFlatten 2 (rpnClsMap A aStride wS bS wC bC x)) := rfl
  rw [h21]
  have hgval : (permuteFlatten 2 (rpnClsMap A aStride wS bS wC bC x)).g = 2 := rfl
  have hdata : ∀ j' : ℕ, (softmaxF2 (permuteFlatten 2 (rpnClsMap A aStride wS bS wC bC x))).data i j' =
      Real.exp ((permuteFlatten 2 (rpnClsMap A aStride wS bS wC bC x)).data i j') /
        (Real.exp ((permuteFlatten 2 (rpnClsMap A aStride wS bS wC bC x)).data i 0) +
          Real.exp ((permuteFlatten 2 (rpnClsMap A aStride wS bS wC bC x)).data i 1)) := by
    intro j'
    simp only [softmaxF2, hgval]
    rw [Finset.sum_range_succ, Finset.sum_range_one]
  have hpos : 0 < Real.exp ((permuteFlatten 2 (rpnClsMap A aStride wS bS wC bC x)).data i 0) +
      Real.exp ((permuteFlatten 2 (rpnClsMap A aStride wS bS wC bC x)).data i 1) := by
    have e0 := Real.exp_pos ((permuteFlatten 2 (rpnClsMap A aStride wS bS wC bC x)).data i 0)
    have e1 := Real.exp_pos ((permuteFlatten 2 (rpnClsMap A aStride wS bS wC bC x)).data i 1)
    linarith
  refine ⟨⟨?_, ?_⟩, ?_⟩
  · rw [hdata j]
    exact div_nonneg (Real.exp_pos _).le hpos.le
  · rw [hdata j]
    rw [div_le_one hpos]
    interval_cases j
    · have := Real.exp_pos ((permuteFlatten 2 (rpnClsMap A aStride wS bS wC bC x)).data i 1)
      linarith
    · have := Real.exp_pos ((permuteFlatten 2 (rpnClsMap A aStride wS bS wC bC x)).data i 0)
      linarith
  · rw [hdata 0, hdata 1, div_add_div_same, div_self hpos.ne']

/-- Witness for `rpn_probs_pair` at a concrete instance. -/
theorem rpn_probs_pair_holds :
    (0 ≤ (rpnForward 1 1 (fun _ _ _ _ => 0) (fun _ => 0) (fun _ _ _ _ => 0) (fun _ => 0)
        (fun _ _ _ _ => 0) (fun _ => 0) ⟨1, 1, 1, fun _ _ _ => 0⟩).2.1.data 0 1 ∧
      (rpnForward 1 1 (fun _ _ _ _ => 0) (fun _ => 0) (fun _ _ _ _ => 0) (fun _ => 0)
        (fun _ _ _ _ => 0) (fun _ => 0) ⟨1, 1, 1, fun _ _ _ => 0⟩).2.1.data 0 1 ≤ 1) ∧
    (rpnForward 1 1 (fun _ _ _ _ => 0) (fun _ => 0) (fun _ _ _ _ => 0) (fun _ => 0)
        (fun _ _ _ _ => 0) (fun _ => 0) ⟨1, 1, 1, fun _ _ _ => 0⟩).2.1.data 0 0 +
      (rpnForward 1 1 (fun _ _ _ _ => 0) (fun _ => 0) (fun _ _ _ _ => 0) (fun _ => 0)
        (fun _ _ _ _ => 0) (fun _ => 0) ⟨1, 1, 1, fun _ _ _ => 0⟩).2.1.data 0 1 = 1 :=
  rpn_probs_pair 1 1 (fun _ _ _ _ => 0) (fun _ => 0) (fun _ _ _ _ => 0) (fun _ => 0)
    (fun _ _ _ _ => 0) (fun _ => 0) ⟨1, 1, 1, fun _ _ _ => 0⟩ 0 1 (by decide) (by decide)

/-- Claim C7: every loss term evaluates to exactly `0` (and does not
fail) when its positive/target set is empty: all anchors neutral for
the RPN class loss, no positive anchor for the RPN box loss, no target
RoI for the head class loss, and no positive class id for the head box
and mask losses. -/
theorem losses_zero_on_empty
    (m1 : List ℤ) (lg1 : List (ℝ × ℝ)) (h1 : ∀ m ∈ m1, m = 0)
    (tb2 : List D4) (m2 : List ℤ) (pb2 : List D4) (h2 : ∀ m ∈ m2, m ≠ 1)
    (lg3 : List (List ℝ))
    (td4 : List D4) (tc4 : List ℕ) (pb4 : List (List D4)) (h4 : ∀ cid ∈ tc4, cid = 0)
    (tm5 : List (List ℝ)) (tc5 : List ℕ) (pm5 : List (List (List ℝ)))
    (h5 : ∀ cid ∈ tc5, cid = 0) :
    computeRpnClassLoss m1 lg1 = 0 ∧
    computeRpnBboxLoss tb2 m2 pb2 = 0 ∧
    computeMrcnnClassLoss [] lg3 = 0 ∧
    computeMrcnnBboxLoss td4 tc4 pb4 = 0 ∧
    computeMrcnnMaskLoss tm5 tc5 pm5 = 0 := by
  refine ⟨?_, ?_, ?_, ?_, ?_⟩
  · have hsel : (m1.zip lg1).filter (fun p => decide (p.1 ≠ 0)) = [] := by
      rw [List.filter_eq_nil_iff]
      rintro ⟨a, b⟩ hab
      have ha := (List.of_mem_zip hab).1
      simp [h1 a ha]
    simp only [computeRpnClassLoss]
    rw [hsel]
    rfl
  · have hsel : (m2.zip (pb2.zip tb2)).filter (fun p => decide (p.1 = 1)) = [] := by
      rw [List.filter_eq_nil_iff]
      rintro ⟨a, b⟩ hab
      have ha := (List.of_mem_zip hab).1
      simp [h2 a ha]
    simp only [computeRpnBboxLoss]
    rw [hsel]
    rfl
  · simp only [computeMrcnnClassLoss]
    rfl
  · have hsel : (tc4.zip (td4.zip pb4)).filter (fun p => decide (0 < p.1)) = [] := by
      rw [List.filter_eq_nil_iff]
      rintro ⟨a, b⟩ hab
      have ha := (List.of_mem_zip hab).1
      simp [h4 a ha]
    simp only [computeMrcnnBboxLoss]
    rw [hsel]
    rfl
  · have hsel : (tc5.zip (tm5.zip pm5)).filter (fun p => decide (0 < p.1)) = [] := by
      rw [List.filter_eq_nil_iff]
      rintro ⟨a, b⟩ hab
      have ha := (List.of_mem_zip hab).1
      simp [h5 a ha]
    simp only [computeMrcnnMaskLoss]
    rw [hsel]
    rfl

/-- Witness for `losses_zero_on_empty` at concrete inputs. -/
theorem losses_zero_on_empty_holds :
    computeRpnClassLoss [0, 0] [(1, 2), (3, 4)] = 0 ∧
    computeRpnBboxLoss [(1, 1, 1, 1)] [-1, 0] [(2, 2, 2, 2), (3, 3, 3, 3)] = 0 ∧
    computeMrcnnClassLoss [] [[1, 2, 3]] = 0 ∧
    computeMrcnnBboxLoss [(1, 0, 0, 1)] [0, 0] [[(1, 2, 3, 4)]] = 0 ∧
    computeMrcnnMaskLoss [[1, 0]] [0] [[[1, 1], [0, 0]]] = 0 :=
  losses_zero_on_empty [0, 0] [(1, 2), (3, 4)] (by decide)
    [(1, 1, 1, 1)] [-1, 0] [(2, 2, 2, 2), (3, 3, 3, 3)] (by decide)
    [[1, 2, 3]]
    [(1, 0, 0, 1)] [0, 0] [[(1, 2, 3, 4)]] (by decide)
    [[1, 0]] [0] [[[1, 1], [0, 0]]] (by decide)

/-- A window the size of the input leaves a single output position. -/
theorem convOutDim_self (p : ℕ) : convOutDim p p 1 = 1 := by
  unfold convOutDim
  split
  · omega
  · simp

/-- Claim C8: on a batch of `N` pooled RoIs (spatial extent
`pool_size × pool_size`), the Classifier head's two-convolution trunk
produces a 1024-channel, 1×1-spatial feature (a 1024-vector per RoI),
and the head returns per-class logits of shape `[N, num_classes]`,
their row-softmax of the same shape, and per-class box deltas of shape
`[N, num_classes, 4]` whose class-`c` quadruple holds flat linear
outputs `4c .. 4c+3`. -/
theorem classifier_forward_outputs (numClasses poolSize : ℕ)
    (w1 : ℕ → ℕ → ℕ → ℕ → ℝ) (b1 : ℕ → ℝ) (bn1 : ℕ → ℝ → ℝ)
    (w2 : ℕ → ℕ → ℕ → ℕ → ℝ) (b2 : ℕ → ℝ) (bn2 : ℕ → ℝ → ℝ)
    (wCls : ℕ → ℕ → ℝ) (bCls : ℕ → ℝ) (wBox : ℕ → ℕ → ℝ) (bBox : ℕ → ℝ)
    (pooled : List (T3 ℝ))
    (hp : ∀ t ∈ pooled, t.h = poolSize ∧ t.w = poolSize) :
    (classifierForward numClasses poolSize w1 b1 bn1 w2 b2 bn2 wCls bCls wBox bBox
        pooled).1.length = pooled.length ∧
    (∀ row ∈ (classifierForward numClasses poolSize w1 b1 bn1 w2 b2 bn2 wCls bCls wBox bBox
        pooled).1, row.length = numClasses) ∧
    (classifierForward numClasses poolSize w1 b1 bn1 w2 b2 bn2 wCls bCls wBox bBox
        pooled).2.1 =
      (classifierForward numClasses poolSize w1 b1 bn1 w2 b2 bn2 wCls bCls wBox bBox
        pooled).1.map softmaxRow ∧
    (∀ row ∈ (classifierForward numClasses poolSize w1 b1 bn1 w2 b2 bn2 wCls bCls wBox bBox
        pooled).2.1, row.length = numClasses) ∧
    (classifierForward numClasses poolSize w1 b1 bn1 w2 b2 bn2 wCls bCls wBox bBox
        pooled).2.2.length = pooled.length ∧
    (∀ rows ∈ (classifierForward numClasses poolSize w1 b1 bn1 w2 b2 bn2 wCls bCls wBox bBox
        pooled).2.2, rows.length = numClasses ∧ ∀ q ∈ rows, q.length = 4) ∧
    (∀ t ∈ pooled, (classifierFeat poolSize w1 b1 bn1 w2 b2 bn2 t).c = 1024 ∧
      (classifierFeat poolSize w1 b1 bn1 w2 b2 bn2 t).h = 1 ∧
      (classifierFeat poolSize w1 b1 bn1 w2 b2 bn2 t).w = 1) ∧
    (classifierForward numClasses poolSize w1 b1 bn1 w2 b2 bn2 wCls bCls wBox bBox
        pooled).1 =
      pooled.map (fun t => (List.range numClasses).map
        (linRow wCls bCls (classifierFeat poolSize w1 b1 bn1 w2 b2 bn2 t))) ∧
    (classifierForward numClasses poolSize w1 b1 bn1 w2 b2 bn2 wCls bCls wBox bBox
        pooled).2.2 =
      pooled.map (fun t => (List.range numClasses).map (fun cc =>
        (List.range 4).map (fun jj =>
          linRow wBox bBox (classifierFeat poolSize w1 b1 bn1 w2 b2 bn2 t)
            (4 * cc + jj)))) := by
  refine ⟨?_, ?_, rfl, ?_, ?_, ?_, ?_, ?_, ?_⟩
  · simp [classifierForward]
  · intro row hrow
    simp only [classifierForward, List.mem_map] at hrow
    obtain ⟨t, _, rfl⟩ := hrow
    simp
  · intro row hrow
    simp only [classifierForward, softmaxRow, List.mem_map] at hrow
    obtain ⟨r, ⟨t, _, rfl⟩, rfl⟩ := hrow
    simp
  · simp [classifierForward]
  · intro rows hrows
    simp only [classifierForward, List.mem_map] at hrows
    obtain ⟨t, _, rfl⟩ := hrows
    constructor
    · simp
    · intro q hq
      simp only [List.mem_map] at hq
      obtain ⟨cc, _, rfl⟩ := hq
      simp
  · intro t ht
    obtain ⟨hh, hw⟩ := hp t ht
    refine ⟨rfl, ?_, ?_⟩
    · show convOutDim (convOutDim t.h poolSize 1) 1 1 = 1
      rw [convOutDim_one_one, hh, convOutDim_self]
    · show convOutDim (convOutDim t.w poolSize 1) 1 1 = 1
      rw [convOutDim_one_one, hw, convOutDim_self]
  · simp [classifierForward, List.map_map]
  · simp [classifierForward, List.map_map]

/-- Witness for `classifier_forward_outputs` at a concrete instance. -/
theorem classifier_forward_outputs_holds :
    (classifierForward 2 1 (fun _ _ _ _ => 0) (fun _ => 0) (fun _ v => v)
        (fun _ _ _ _ => 0) (fun _ => 0) (fun _ v => v) (fun _ _ => 0) (fun _ => 0)
        (fun _ _ => 0) (fun _ => 0) [⟨1, 1, 1, fun _ _ _ => 0⟩]).1.length = 1 ∧
    (classifierForward 2 1 (fun _ _ _ _ => 0) (fun _ => 0) (fun _ v => v)
        (fun _ _ _ _ => 0) (fun _ => 0) (fun _ v => v) (fun _ _ => 0) (fun _ => 0)
        (fun _ _ => 0) (fun _ => 0) [⟨1, 1, 1, fun _ _ _ => 0⟩]).2.2.length = 1 :=
  have h := classifier_forward_outputs 2 1 (fun _ _ _ _ => 0) (fun _ => 0) (fun _ v => v)
    (fun _ _ _ _ => 0) (fun _ => 0) (fun _ v => v) (fun _ _ => 0) (fun _ => 0)
    (fun _ _ => 0) (fun _ => 0) [⟨1, 1, 1, fun _ _ _ => 0⟩]
    (by intro t ht; simp at ht; rw [ht]; exact ⟨rfl, rfl⟩)
  ⟨h.1, h.2.2.2.2.1⟩

/-- When the stride does not exceed the kernel, the `pad_along_*`
amount of `SamePad2d` is nonnegative. -/
theorem padAlongDim_nonneg (k s n : ℕ) (hs : 0 < s) (hk : s ≤ k) :
    0 ≤ padAlongDim k s n := by
  have h2 := Nat.div_add_mod (n + s - 1) s
  have h3 : (n + s - 1) % s < s := Nat.mod_lt _ hs
  have h1 : n ≤ s * ((n + s - 1) / s) := by omega
  have h1' : (n : ℤ) ≤ (s : ℤ) * (((n + s - 1) / s : ℕ) : ℤ) := by exact_mod_cast h1
  have hk' : (s : ℤ) ≤ (k : ℤ) := by exact_mod_cast hk
  unfold padAlongDim ceilDiv
  push_cast
  nlinarith [h1', hk']

/-- The remainder `a - 2 * floor(a / 2)` is `0` or `1`. -/
theorem sub_two_fdiv_two (a : ℤ) : a - 2 * a.fdiv 2 = 0 ∨ a - 2 * a.fdiv 2 = 1 := by
  have h1 := Int.fmod_add_fdiv a 2
  have h2 : a.fmod 2 = a % 2 := Int.fmod_eq_emod a (by norm_num)
  have h3 := Int.emod_nonneg a (by norm_num : (2 : ℤ) ≠ 0)
  have h4 := Int.emod_lt_of_pos a (by norm_num : (0 : ℤ) < 2)
  omega

/-- Claim C10, amended: provided the stride is positive and does not
exceed the kernel size (so the computed pad amounts are nonnegative —
every use in the sources has `k = 3 ≥ s`), `SamePad2d` only adds
zero-valued border cells: the output restricted to the rectangle at
offset `(pad_top, pad_left)` is exactly the input, every added cell is
`0`, and right/bottom exceed left/top by at most one. -/
theorem same_pad_only_adds_border (k s : ℕ) (t : T3 ℚ) (hs : 0 < s) (hk : s ≤ k) :
    padPreserves k s t := by
  have hpaH := padAlongDim_nonneg k s t.h hs hk
  have hpaW := padAlongDim_nonneg k s t.w hs hk
  have hL0 : 0 ≤ samePadL k s t := Int.fdiv_nonneg hpaH (by norm_num)
  have hT0 : 0 ≤ samePadT k s t := Int.fdiv_nonneg hpaW (by norm_num)
  have hLfd := sub_two_fdiv_two (padAlongDim k s t.h)
  have hTfd := sub_two_fdiv_two (padAlongDim k s t.w)
  have hLle : 2 * samePadL k s t ≤ padAlongDim k s t.h := by
    unfold samePadL
    omega
  have hTle : 2 * samePadT k s t ≤ padAlongDim k s t.w := by
    unfold samePadT
    omega
  have hR0 : 0 ≤ samePadR k s t := by
    unfold samePadR
    omega
  have hB0 : 0 ≤ samePadB k s t := by
    unfold samePadB
    omega
  have hEq : samePad2d k k s s t =
      pad2d (samePadL k s t) (samePadR k s t) (samePadT k s t) (samePadB k s t) t := rfl
  have hRL : samePadR k s t - samePadL k s t =
      padAlongDim k s t.h - 2 * samePadL k s t := by
    unfold samePadR
    ring
  have hBT : samePadB k s t - samePadT k s t =
      padAlongDim k s t.w - 2 * samePadT k s t := by
    unfold samePadB
    ring
  refine ⟨?_, ?_, ?_, ?_⟩
  · intro c i j hi hj
    rw [hEq]
    have hh : ((((t.h : ℤ) + samePadT k s t + samePadB k s t).toNat : ℤ)) =
        (t.h : ℤ) + samePadT k s t + samePadB k s t := Int.toNat_of_nonneg (by omega)
    have hw' : ((((t.w : ℤ) + samePadL k s t + samePadR k s t).toNat : ℤ)) =
        (t.w : ℤ) + samePadL k s t + samePadR k s t := Int.toNat_of_nonneg (by omega)
    unfold readZ pad2d
    simp only
    rw [if_pos (⟨by omega, by omega, by omega, by omega⟩ : _ ∧ _ ∧ _ ∧ _)]
    rw [if_pos (⟨by omega, by omega, by omega, by omega⟩ : _ ∧ _ ∧ _ ∧ _)]
    congr 1 <;> omega
  · intro c i j hi hj hout
    rw [hEq]
    unfold pad2d
    simp only
    rw [if_neg]
    intro hcond
    obtain ⟨h1, h2, h3, h4⟩ := hcond
    rcases hout with h | h | h | h <;> omega
  · rw [hRL]
    unfold samePadL at hLfd ⊢
    omega
  · rw [hBT]
    unfold samePadT at hTfd ⊢
    omega

/-- Witness for `same_pad_only_adds_border` at `SamePad2d(3, 2)` on a
concrete 1×3×2 input. -/
theorem same_pad_only_adds_border_holds :
    padPreserves 3 2 ⟨1, 3, 2, fun _ i j => (i + j : ℚ)⟩ :=
  same_pad_only_adds_border 3 2 ⟨1, 3, 2, fun _ i j => (i + j : ℚ)⟩
    (by decide) (by decide)

/-- Claim C10 as stated is false: `SamePad2d(1, 2)` on a 1×2×2 input
computes negative pad amounts (`pad_top = pad_left = -1`), and `F.pad`
then crops the tensor, discarding input values instead of only adding
zero border cells. -/
theorem same_pad_only_adds_border_cx : ¬ padPreserves 1 2 c10Input := by
  intro h
  have h0 := h.1 0 0 0 (by decide) (by decide)
  rw [show (((0 : ℕ) : ℤ)) + samePadT 1 2 c10Input = -1 from by decide,
    show (((0 : ℕ) : ℤ)) + samePadL 1 2 c10Input = -1 from by decide] at h0
  unfold readZ at h0
  rw [if_neg (by omega)] at h0
  simp [c10Input] at h0

end Model
